import Mathlib

/-!
Verification of the typed-documentdb client specification.

The repository declares the surface of a DocumentDB client
(`src/index.d.ts`); the addressing / pagination / retry engine behind it
is described by the specification but not shipped in the source tree.
Where a claim concerns a declared type (`QueryError`, `RequestOptions`,
`FeedOptions`, `QueryIterator`, the `DocumentClient` method surface) the
definitions below embed the declaration file directly.  Where a claim
concerns the engine (resource-link parsing, request execution and retry,
feed pagination, session tracking) the definitions are modelled from the
specification text, and each such definition says so in its doc comment.
-/

namespace TypedDocumentDB

/-! ## Resource Link Model -/

/-- Modelled from the spec: the fixed set of resource type tags of the
containment hierarchy (§3, §6); the implementation is not in the source
tree, only link-typed parameters of `DocumentClient` are declared. -/
inductive ResourceTag where
  | database
  | collection
  | document
  | attachment
  | storedProcedure
  | trigger
  | udf
  | user
  | permission
  | conflict
  | offer
deriving DecidableEq, Repr

/-- Modelled from the spec: the wire keyword of each segment type tag
(§6: `dbs`, `colls`, `docs`, `users`, `permissions`, `sprocs`,
`triggers`, `udfs`, `attachments`, `conflicts`, `offers`). -/
def keywordOfTag : ResourceTag → String
  | .database => "dbs"
  | .collection => "colls"
  | .document => "docs"
  | .attachment => "attachments"
  | .storedProcedure => "sprocs"
  | .trigger => "triggers"
  | .udf => "udfs"
  | .user => "users"
  | .permission => "permissions"
  | .conflict => "conflicts"
  | .offer => "offers"

/-- Modelled from the spec: decoding of a segment type keyword;
an unrecognized keyword yields `none` (§4.1). -/
def tagOfKeyword (s : String) : Option ResourceTag :=
  if s = "dbs" then some .database
  else if s = "colls" then some .collection
  else if s = "docs" then some .document
  else if s = "attachments" then some .attachment
  else if s = "sprocs" then some .storedProcedure
  else if s = "triggers" then some .trigger
  else if s = "udfs" then some .udf
  else if s = "users" then some .user
  else if s = "permissions" then some .permission
  else if s = "conflicts" then some .conflict
  else if s = "offers" then some .offer
  else none

/-- Modelled from the spec: the fixed containment hierarchy (§3 invariant
together with the parent links declared on the `DocumentClient` surface:
databases and offers at the root; collections, users and permissions under
a database; documents, stored procedures, triggers, udfs and conflicts
under a collection; attachments under a document). -/
def parentOk : Option ResourceTag → ResourceTag → Bool
  | none, .database => true
  | none, .offer => true
  | some .database, .collection => true
  | some .database, .user => true
  | some .database, .permission => true
  | some .collection, .document => true
  | some .collection, .storedProcedure => true
  | some .collection, .trigger => true
  | some .collection, .udf => true
  | some .collection, .conflict => true
  | some .document, .attachment => true
  | _, _ => false

/-- Splitting a character list on the separator `/`.  This is the shallow
embedding of splitting a link string into its `/`-separated segments. -/
def splitOnSlash : List Char → List (List Char)
  | [] => [[]]
  | c :: rest =>
    match splitOnSlash rest with
    | [] => [[c]]
    | s :: ss => if c = '/' then [] :: s :: ss else (c :: s) :: ss

/-- Joining segment chunks back with the separator `/`. -/
def joinSlash : List (List Char) → List Char
  | [] => []
  | [s] => s
  | s :: s2 :: ss => s ++ '/' :: joinSlash (s2 :: ss)

/-- A parsed resource link: an ordered sequence of (type tag, id)
segments (spec §3, `ResourceLink`). -/
def ResourceLink := List (ResourceTag × String)

/-- Modelled from the spec: the single local link error (§4.1, §7). -/
inductive LinkError where
  | InvalidLinkFormat
deriving DecidableEq, Repr

/-- Modelled from the spec: parsing the segment chunks of a link.
A lone trailing chunk means the segment count is odd; each pair is a
(type keyword, id); the keyword must be recognized and the tag must be a
legal child of the preceding tag (§4.1). -/
def parseSegs : Option ResourceTag → List (List Char) →
    Except LinkError (List (ResourceTag × String))
  | _, [] => .ok []
  | _, [_] => .error .InvalidLinkFormat
  | parent, kw :: idChunk :: rest =>
    match tagOfKeyword (String.mk kw) with
    | none => .error .InvalidLinkFormat
    | some t =>
      if parentOk parent t then
        match parseSegs (some t) rest with
        | .error e => .error e
        | .ok segs => .ok ((t, String.mk idChunk) :: segs)
      else .error .InvalidLinkFormat

/-- Modelled from the spec: `parse(link) -> ResourceLink | error`
(§4.1). -/
def parseLink (s : String) : Except LinkError (List (ResourceTag × String)) :=
  parseSegs none (splitOnSlash s.data)

/-- The chunk sequence of a parsed link: keyword and id alternating. -/
def segChunks (segs : List (ResourceTag × String)) : List (List Char) :=
  match segs with
  | [] => []
  | (t, id) :: rest => (keywordOfTag t).data :: id.data :: segChunks rest

/-- Modelled from the spec: re-serialization of a parsed link back to the
wire path format `<container>/<id>/...` (§6). -/
def serializeLink (segs : List (ResourceTag × String)) : String :=
  String.mk (joinSlash (segChunks segs))

/-- Modelled from the spec: the well-formedness check of a chunk
sequence, written the way §4.1 states it: the segment count must be even,
each type keyword must be recognized, and each tag must respect the fixed
containment hierarchy. -/
def wfChunks : Option ResourceTag → List (List Char) → Bool
  | _, [] => true
  | _, [_] => false
  | parent, kw :: _ :: rest =>
    match tagOfKeyword (String.mk kw) with
    | none => false
    | some t => parentOk parent t && wfChunks (some t) rest

theorem join_split (l : List Char) : joinSlash (splitOnSlash l) = l := by
  induction l with
  | nil => rfl
  | cons c rest ih =>
    simp only [splitOnSlash]
    cases h : splitOnSlash rest with
    | nil =>
      rw [h] at ih
      simp only [joinSlash] at ih
      subst ih
      rfl
    | cons s ss =>
      rw [h] at ih
      by_cases hc : c = '/'
      · subst hc
        simp only [if_pos rfl]
        cases ss with
        | nil => simp only [joinSlash] at ih ⊢; rw [ih]; rfl
        | cons s2 ss2 =>
          simp only [joinSlash, List.nil_append] at ih ⊢
          rw [ih]
      · simp only [if_neg hc]
        cases ss with
        | nil => simp only [joinSlash] at ih ⊢; rw [ih]
        | cons s2 ss2 =>
          simp only [joinSlash, List.cons_append] at ih ⊢
          rw [ih]

set_option maxHeartbeats 2000000 in
theorem tag_keyword_inv (kw : List Char) (t : ResourceTag)
    (h : tagOfKeyword (String.mk kw) = some t) :
    (keywordOfTag t).data = kw := by
  unfold tagOfKeyword at h
  split_ifs at h with h1 h2 h3 h4 h5 h6 h7 h8 h9 h10 h11
  · cases h; exact (congrArg String.data h1).symm
  · cases h; exact (congrArg String.data h2).symm
  · cases h; exact (congrArg String.data h3).symm
  · cases h; exact (congrArg String.data h4).symm
  · cases h; exact (congrArg String.data h5).symm
  · cases h; exact (congrArg String.data h6).symm
  · cases h; exact (congrArg String.data h7).symm
  · cases h; exact (congrArg String.data h8).symm
  · cases h; exact (congrArg String.data h9).symm
  · cases h; exact (congrArg String.data h10).symm
  · cases h; exact (congrArg String.data h11).symm

theorem parseSegs_chunks :
    ∀ (chunks : List (List Char)) (parent : Option ResourceTag)
      (segs : List (ResourceTag × String)),
    parseSegs parent chunks = .ok segs → segChunks segs = chunks
  | [], _, segs, h => by
    simp only [parseSegs] at h
    cases h
    rfl
  | [_], _, segs, h => by
    simp only [parseSegs] at h
    cases h
  | kw :: idChunk :: rest, parent, segs, h => by
    simp only [parseSegs] at h
    split at h
    · cases h
    · rename_i t ht
      split at h
      · split at h
        · cases h
        · rename_i segs2 hrec
          cases h
          simp only [segChunks]
          rw [tag_keyword_inv kw t ht,
            parseSegs_chunks rest (some t) segs2 hrec]
      · cases h

theorem string_mk_data (s : String) : String.mk s.data = s := by
  cases s
  rfl

/-- C4: for every well-formed resource link string (one accepted by
`parseLink`), re-serializing the parsed `ResourceLink` yields the
identical string. -/
theorem c4_parse_serialize_roundtrip (s : String)
    (segs : List (ResourceTag × String)) (h : parseLink s = .ok segs) :
    serializeLink segs = s := by
  unfold parseLink at h
  unfold serializeLink
  rw [parseSegs_chunks _ none segs h, join_split, string_mk_data]

example : parseLink "dbs/d1/colls/c1/docs/doc1" =
    .ok [(.database, "d1"), (.collection, "c1"), (.document, "doc1")] := by
  rfl

/-- Witness for C4 at the concrete link `dbs/d1/colls/c1/docs/doc1`. -/
theorem c4_parse_serialize_roundtrip_witness :
    parseLink "dbs/d1/colls/c1/docs/doc1" =
      .ok [(.database, "d1"), (.collection, "c1"), (.document, "doc1")] ∧
    serializeLink [(.database, "d1"), (.collection, "c1"), (.document, "doc1")] =
      "dbs/d1/colls/c1/docs/doc1" :=
  ⟨rfl, c4_parse_serialize_roundtrip _ _ rfl⟩

/-! ## Request Executor -/

/-- An HTTP-level response delivered by the transport collaborator
(spec §6: `send(...) -> (status, headers, body)`); the retry-after and
session-token headers the engine interprets are carried explicitly. -/
structure HttpResponse where
  status : Nat
  retryAfter : Option Nat := none
  body : String := ""
deriving DecidableEq, Repr

/-- `QueryError` from `src/index.d.ts` lines 77-85: the numeric response
code and the raw error body string. -/
structure QueryError where
  code : Nat
  body : String
deriving DecidableEq, Repr

/-- Modelled from the spec: the error taxonomy of §7. -/
inductive ErrorClassification where
  | success
  | NotFound
  | Conflict
  | PreconditionFailed
  | RateLimited (retryAfter : Option Nat)
  | ServiceUnavailable
  | Unauthorized
  | Other
deriving DecidableEq, Repr

/-- A 2xx status is a success (spec §4.3). -/
def isSuccess (status : Nat) : Bool :=
  200 ≤ status && status < 300

/-- Modelled from the spec: classification of an HTTP response by status
(§4.3): 2xx success, 404 NotFound, 409 Conflict, 412 PreconditionFailed,
429 RateLimited carrying the server-suggested retry-after, 5xx
ServiceUnavailable, 401 Unauthorized. -/
def classifyResponse (r : HttpResponse) : ErrorClassification :=
  if isSuccess r.status then .success
  else if r.status = 404 then .NotFound
  else if r.status = 409 then .Conflict
  else if r.status = 412 then .PreconditionFailed
  else if r.status = 429 then .RateLimited r.retryAfter
  else if 500 ≤ r.status && r.status < 600 then .ServiceUnavailable
  else if r.status = 401 then .Unauthorized
  else .Other

/-- Modelled from the spec: a failed exchange is returned as a
`QueryError` holding the numeric status code and the raw error body
(§3 `QueryError`, §4.3). -/
def toQueryError (r : HttpResponse) : QueryError :=
  { code := r.status, body := r.body }

/-- Modelled from the spec: the statuses the retry policy retries —
exactly the `RateLimited` (429) and `ServiceUnavailable` (5xx)
classifications (§4.3). -/
def isRetryable (status : Nat) : Bool :=
  status == 429 || (500 ≤ status && status < 600)

/-- Modelled from the spec: the delay before a retry — the
server-suggested delay when present, else exponential backoff (§4.3). -/
def retryDelay (r : HttpResponse) (baseDelay attempt : Nat) : Nat :=
  match r.retryAfter with
  | some t => t
  | none => baseDelay * 2 ^ attempt

/-- The outcome of one `execute` call: the classified result, the total
time spent waiting between attempts, and the number of transport sends. -/
structure ExecOutcome where
  result : Except QueryError HttpResponse
  waited : Nat
  sends : Nat
deriving Repr

/-- Modelled from the spec: the Request Executor retry loop (§4.3).  The
transport collaborator is a function giving the response to the i-th
attempt; `fuel` is the number of retries still allowed.  A success
returns; a non-retryable failure returns immediately; a retryable
failure with no retries left returns the last classified error, else the
executor waits the retry delay and re-sends. -/
def executeFrom (transport : Nat → HttpResponse) (baseDelay : Nat) :
    Nat → Nat → ExecOutcome
  | attempt, fuel =>
    let r := transport attempt
    if isSuccess r.status then
      { result := .ok r, waited := 0, sends := 1 }
    else if isRetryable r.status then
      match fuel with
      | 0 => { result := .error (toQueryError r), waited := 0, sends := 1 }
      | fuel2 + 1 =>
        let rest := executeFrom transport baseDelay (attempt + 1) fuel2
        { result := rest.result
          waited := retryDelay r baseDelay attempt + rest.waited
          sends := rest.sends + 1 }
    else
      { result := .error (toQueryError r), waited := 0, sends := 1 }

/-- Modelled from the spec: `execute` starts at attempt 0 with the
policy's maximum retry count as fuel (§4.3). -/
def execute (transport : Nat → HttpResponse) (baseDelay maxRetries : Nat) :
    ExecOutcome :=
  executeFrom transport baseDelay 0 maxRetries

/-- Modelled from the spec: an operation either fails locally on the
link (never sent over the wire) or fails with the executor's classified
`QueryError` (§7). -/
inductive OperationError where
  | linkError (e : LinkError)
  | httpError (e : QueryError)
deriving DecidableEq, Repr

/-- Modelled from the spec data flow (§2, §4.1, §7): a client operation
first validates the link; a parse failure surfaces immediately with zero
transport sends, otherwise the Request Executor runs.  The second
component counts transport sends. -/
def clientOperation (transport : Nat → HttpResponse)
    (baseDelay maxRetries : Nat) (link : String) :
    Except OperationError HttpResponse × Nat :=
  match parseLink link with
  | .error e => (.error (.linkError e), 0)
  | .ok _ =>
    let out := execute transport baseDelay maxRetries
    (out.result.mapError .httpError, out.sends)

theorem parseSegs_ok_wf :
    ∀ (chunks : List (List Char)) (parent : Option ResourceTag)
      (segs : List (ResourceTag × String)),
    parseSegs parent chunks = .ok segs → wfChunks parent chunks = true
  | [], _, _, _ => rfl
  | [_], _, segs, h => by
    simp only [parseSegs] at h
    cases h
  | kw :: idChunk :: rest, parent, segs, h => by
    simp only [parseSegs] at h
    simp only [wfChunks]
    split at h
    · cases h
    · rename_i t ht
      split at h
      · rename_i hp
        split at h
        · cases h
        · rename_i segs2 hrec
          rw [hp, parseSegs_ok_wf rest (some t) segs2 hrec]
          rfl
      · cases h

theorem wfChunks_even :
    ∀ (chunks : List (List Char)) (parent : Option ResourceTag),
    wfChunks parent chunks = true → chunks.length % 2 = 0
  | [], _, _ => rfl
  | [_], _, h => by
    simp only [wfChunks] at h
    exact Bool.noConfusion h
  | _ :: _ :: rest, parent, h => by
    simp only [wfChunks] at h
    split at h
    · cases h
    · rename_i t _
      have h2 : wfChunks (some t) rest = true := by
        cases hw : wfChunks (some t) rest with
        | false => rw [hw] at h; simp at h
        | true => rfl
      have := wfChunks_even rest (some t) h2
      simp only [List.length_cons]
      omega

/-- A transport collaborator that always answers 200 OK; used to witness
theorems quantified over the transport. -/
def okTransport : Nat → HttpResponse :=
  fun _ => { status := 200 }

/-- C5: a link whose chunk sequence fails the §4.1 well-formedness check
(`wfChunks` returns false exactly when the segment count is odd, when a
segment type keyword is unrecognized, or when a tag violates the fixed
containment hierarchy) is rejected by `parseLink` with
`InvalidLinkFormat`; in particular an odd segment count always fails the
check, and a client operation on such a link returns the error with zero
transport sends — no network attempt. -/
theorem c5_malformed_link_rejected (s : String) :
    ((splitOnSlash s.data).length % 2 = 1 →
      wfChunks none (splitOnSlash s.data) = false) ∧
    (wfChunks none (splitOnSlash s.data) = false →
      parseLink s = .error .InvalidLinkFormat ∧
      ∀ (transport : Nat → HttpResponse) (baseDelay maxRetries : Nat),
        clientOperation transport baseDelay maxRetries s =
          (.error (.linkError .InvalidLinkFormat), 0)) := by
  constructor
  · intro hodd
    cases hw : wfChunks none (splitOnSlash s.data) with
    | false => rfl
    | true =>
      have := wfChunks_even (splitOnSlash s.data) none hw
      omega
  · intro hw
    have hp : parseLink s = .error .InvalidLinkFormat := by
      cases he : parseLink s with
      | ok segs =>
        unfold parseLink at he
        rw [parseSegs_ok_wf _ none segs he] at hw
        cases hw
      | error e => cases e; rfl
    refine ⟨hp, fun transport baseDelay maxRetries => ?_⟩
    unfold clientOperation
    rw [hp]

/-- Witness for C5 at the malformed link `dbs/d1/docs/x` (a document
segment directly under a database). -/
theorem c5_malformed_link_rejected_witness :
    wfChunks none (splitOnSlash ("dbs/d1/docs/x").data) = false ∧
    parseLink "dbs/d1/docs/x" = .error .InvalidLinkFormat ∧
    clientOperation okTransport 1 3 "dbs/d1/docs/x" =
      (.error (.linkError .InvalidLinkFormat), 0) :=
  ⟨rfl, ((c5_malformed_link_rejected "dbs/d1/docs/x").2 rfl).1,
    ((c5_malformed_link_rejected "dbs/d1/docs/x").2 rfl).2 okTransport 1 3⟩

theorem retryable_iff_classification (r : HttpResponse) :
    isRetryable r.status = true ↔
      ((∃ t, classifyResponse r = .RateLimited t) ∨
        classifyResponse r = .ServiceUnavailable) := by
  unfold classifyResponse isSuccess isRetryable
  split_ifs with h1 h2 h3 h4 h5 h6 h7 <;> simp_all
  all_goals omega

theorem executeFrom_sends_le (transport : Nat → HttpResponse)
    (baseDelay : Nat) :
    ∀ (fuel attempt : Nat),
    (executeFrom transport baseDelay attempt fuel).sends ≤ fuel + 1 := by
  intro fuel
  induction fuel with
  | zero =>
    intro attempt
    simp only [executeFrom]
    split
    · exact Nat.le_refl 1
    · split
      · exact Nat.le_refl 1
      · exact Nat.le_refl 1
  | succ f ih =>
    intro attempt
    simp only [executeFrom]
    split
    · exact Nat.le_add_left 1 (f + 1)
    · split
      · exact Nat.succ_le_succ (ih (attempt + 1))
      · exact Nat.le_add_left 1 (f + 1)

theorem executeFrom_all_rate_limited (transport : Nat → HttpResponse)
    (baseDelay : Nat) (hall : ∀ i, (transport i).status = 429) :
    ∀ (fuel attempt : Nat),
    (executeFrom transport baseDelay attempt fuel).result =
      .error (toQueryError (transport (attempt + fuel))) ∧
    (executeFrom transport baseDelay attempt fuel).sends = fuel + 1 := by
  intro fuel
  induction fuel with
  | zero =>
    intro attempt
    simp only [executeFrom]
    have hs : isSuccess (transport attempt).status = false := by
      rw [hall attempt]; rfl
    have hr : isRetryable (transport attempt).status = true := by
      rw [hall attempt]; rfl
    rw [hs, hr]
    exact ⟨rfl, rfl⟩
  | succ f ih =>
    intro attempt
    simp only [executeFrom]
    have hs : isSuccess (transport attempt).status = false := by
      rw [hall attempt]; rfl
    have hr : isRetryable (transport attempt).status = true := by
      rw [hall attempt]; rfl
    rw [hs, hr]
    have hidx : attempt + 1 + f = attempt + (f + 1) := by omega
    refine ⟨?_, ?_⟩
    · show (executeFrom transport baseDelay (attempt + 1) f).result = _
      rw [(ih (attempt + 1)).1, hidx]
    · show (executeFrom transport baseDelay (attempt + 1) f).sends + 1 = _
      rw [(ih (attempt + 1)).2]

theorem executeFrom_nonretryable (transport : Nat → HttpResponse)
    (baseDelay attempt fuel : Nat)
    (hs : isSuccess (transport attempt).status = false)
    (hr : isRetryable (transport attempt).status = false) :
    executeFrom transport baseDelay attempt fuel =
      { result := .error (toQueryError (transport attempt)),
        waited := 0, sends := 1 } := by
  cases fuel
  all_goals simp [executeFrom, hs, hr]

/-- C2: the Request Executor retry policy — the retryable statuses are
exactly the `RateLimited` and `ServiceUnavailable` classifications; every
execution performs at most `maxRetries + 1` transport sends; a
non-retryable classified failure is returned immediately after one send
with no waiting; a first response of 429 with server-suggested
retry-after `T` forces at least `T` of waiting before returning (when a
retry is allowed); and against a transport that always answers 429 the
executor terminates with the last classified `RateLimited` error after
exhausting the whole retry budget. -/
theorem c2_retry_policy (transport : Nat → HttpResponse)
    (baseDelay maxRetries : Nat) :
    ((∀ r : HttpResponse, isRetryable r.status = true ↔
        ((∃ t, classifyResponse r = .RateLimited t) ∨
          classifyResponse r = .ServiceUnavailable)) ∧
      (execute transport baseDelay maxRetries).sends ≤ maxRetries + 1) ∧
    (isSuccess (transport 0).status = false →
      isRetryable (transport 0).status = false →
      execute transport baseDelay maxRetries =
        { result := .error (toQueryError (transport 0)),
          waited := 0, sends := 1 }) ∧
    (∀ T : Nat, (transport 0).status = 429 →
      (transport 0).retryAfter = some T → 1 ≤ maxRetries →
      T ≤ (execute transport baseDelay maxRetries).waited) ∧
    ((∀ i, (transport i).status = 429) →
      (execute transport baseDelay maxRetries).result =
        .error (toQueryError (transport maxRetries)) ∧
      (execute transport baseDelay maxRetries).sends = maxRetries + 1) := by
  refine ⟨⟨retryable_iff_classification,
    executeFrom_sends_le transport baseDelay maxRetries 0⟩, ?_, ?_, ?_⟩
  · intro hs hr
    exact executeFrom_nonretryable transport baseDelay 0 maxRetries hs hr
  · intro T h429 hra hmr
    obtain ⟨m, rfl⟩ : ∃ m, maxRetries = m + 1 :=
      ⟨maxRetries - 1, by omega⟩
    unfold execute
    simp only [executeFrom]
    have hs : isSuccess (transport 0).status = false := by
      rw [h429]; rfl
    have hr : isRetryable (transport 0).status = true := by
      rw [h429]; rfl
    rw [hs, hr]
    show T ≤ retryDelay (transport 0) baseDelay 0 +
      (executeFrom transport baseDelay 1 m).waited
    unfold retryDelay
    rw [hra]
    exact Nat.le_add_right T _
  · intro hall
    have h := executeFrom_all_rate_limited transport baseDelay hall maxRetries 0
    rw [Nat.zero_add] at h
    exact h

/-- A transport collaborator that always answers 429 with a suggested
retry-after of 7; used to witness the retry theorems. -/
def rateLimitedTransport : Nat → HttpResponse :=
  fun _ => { status := 429, retryAfter := some 7, body := "throttled" }

/-- Witness for C2 against a transport that always answers 429 with
retry-after 7, with a budget of 2 retries. -/
theorem c2_retry_policy_witness :
    isSuccess (rateLimitedTransport 0).status = false ∧
    (rateLimitedTransport 0).status = 429 ∧
    (rateLimitedTransport 0).retryAfter = some 7 ∧
    (1 : Nat) ≤ 2 ∧
    (∀ i, (rateLimitedTransport i).status = 429) ∧
    (execute rateLimitedTransport 1 2).sends ≤ 3 ∧
    7 ≤ (execute rateLimitedTransport 1 2).waited ∧
    (execute rateLimitedTransport 1 2).result =
      .error (toQueryError (rateLimitedTransport 2)) :=
  ⟨rfl, rfl, rfl, by omega, fun _ => rfl,
    (c2_retry_policy rateLimitedTransport 1 2).1.2,
    (c2_retry_policy rateLimitedTransport 1 2).2.2.1 7 rfl rfl (by omega),
    ((c2_retry_policy rateLimitedTransport 1 2).2.2.2 (fun _ => rfl)).1⟩

/-- Modelled from the spec: the server-side state of a stored resource
relevant to conditional operations — identity for conditional operations
is the entity tag (§3 `ResourceMeta`). -/
structure StoredDoc where
  id : String
  etag : String
  body : String
deriving DecidableEq, Repr

/-- Modelled from the spec: the server behaviour of a conditional
replace guarded by an if-match entity tag — a matching tag applies the
replacement and issues a fresh entity tag, a stale tag leaves the stored
resource untouched and answers 412 (§8: a conditional update with a
stale entity tag always yields `PreconditionFailed`, never a silent
overwrite). -/
def serverConditionalReplace (d : StoredDoc) (ifMatch newBody newEtag : String) :
    HttpResponse × StoredDoc :=
  if ifMatch = d.etag then
    ({ status := 200, retryAfter := none, body := newBody },
      { d with body := newBody, etag := newEtag })
  else
    ({ status := 412, retryAfter := none, body := "precondition failed" }, d)

/-- C3: classification of every HTTP response by status — 404 yields
`NotFound`, 409 `Conflict`, 412 `PreconditionFailed`, 429 `RateLimited`
carrying the server-suggested retry-after, 5xx `ServiceUnavailable`; a
2xx response is a success whose decoded resource the executor returns;
a classified failure is returned as a `QueryError` holding the numeric
status code and the raw error body; and a conditional replace with a
stale entity tag yields 412 / `PreconditionFailed` and leaves the stored
resource unchanged. -/
theorem c3_response_classification (r : HttpResponse) (d : StoredDoc)
    (ifMatch newBody newEtag : String) (baseDelay maxRetries : Nat) :
    (r.status = 404 → classifyResponse r = .NotFound) ∧
    (r.status = 409 → classifyResponse r = .Conflict) ∧
    (r.status = 412 → classifyResponse r = .PreconditionFailed) ∧
    (r.status = 429 → classifyResponse r = .RateLimited r.retryAfter) ∧
    (500 ≤ r.status → r.status < 600 →
      classifyResponse r = .ServiceUnavailable) ∧
    (isSuccess r.status = true →
      (execute (fun _ => r) baseDelay maxRetries).result = .ok r) ∧
    (isSuccess r.status = false → isRetryable r.status = false →
      (execute (fun _ => r) baseDelay maxRetries).result =
        .error { code := r.status, body := r.body }) ∧
    (ifMatch ≠ d.etag →
      (serverConditionalReplace d ifMatch newBody newEtag).1.status = 412 ∧
      classifyResponse (serverConditionalReplace d ifMatch newBody newEtag).1 =
        .PreconditionFailed ∧
      (serverConditionalReplace d ifMatch newBody newEtag).2 = d) := by
  refine ⟨?_, ?_, ?_, ?_, ?_, ?_, ?_, ?_⟩
  · intro h; simp [classifyResponse, isSuccess, h]
  · intro h; simp [classifyResponse, isSuccess, h]
  · intro h; simp [classifyResponse, isSuccess, h]
  · intro h; simp [classifyResponse, isSuccess, h]
  · intro h5 h6
    unfold classifyResponse isSuccess
    split_ifs with a1 a2 a3 a4 a5 a6 <;> simp_all
    all_goals omega
  · intro hs
    cases maxRetries
    all_goals simp [execute, executeFrom, hs]
  · intro hs hr
    rw [show (execute (fun _ => r) baseDelay maxRetries) =
      executeFrom (fun _ => r) baseDelay 0 maxRetries from rfl]
    rw [executeFrom_nonretryable (fun _ => r) baseDelay 0 maxRetries hs hr]
    rfl
  · intro hm
    unfold serverConditionalReplace
    rw [if_neg hm]
    exact ⟨rfl, rfl, rfl⟩

/-- Witness for C3 starting from a 429 response with retry-after 7 and a
stale-etag conditional replace. -/
theorem c3_response_classification_witness :
    (429 : Nat) = 429 ∧
    classifyResponse { status := 429, retryAfter := some 7, body := "x" } =
      .RateLimited (some 7) ∧
    "stale" ≠ ("fresh" : String) ∧
    (serverConditionalReplace ⟨"doc1", "fresh", "old"⟩ "stale" "new" "v2").1.status
        = 412 ∧
    (serverConditionalReplace ⟨"doc1", "fresh", "old"⟩ "stale" "new" "v2").2 =
      ⟨"doc1", "fresh", "old"⟩ :=
  ⟨rfl,
    (c3_response_classification { status := 429, retryAfter := some 7, body := "x" }
      ⟨"doc1", "fresh", "old"⟩ "stale" "new" "v2" 1 2).2.2.2.1 rfl,
    by decide,
    ((c3_response_classification { status := 429, retryAfter := some 7, body := "x" }
      ⟨"doc1", "fresh", "old"⟩ "stale" "new" "v2" 1 2).2.2.2.2.2.2.2
      (by decide)).1,
    (((c3_response_classification { status := 429, retryAfter := some 7, body := "x" }
      ⟨"doc1", "fresh", "old"⟩ "stale" "new" "v2" 1 2).2.2.2.2.2.2.2
      (by decide)).2.2)⟩

/-! ## Request Option Composer -/

/-- The conditional header of `RequestOptions.accessCondition` from
`src/index.d.ts` lines 33-41: a conditional HTTP method header type and
value. -/
structure AccessCondition where
  type : String
  condition : String
deriving DecidableEq, Repr

/-- `RequestOptions` from `src/index.d.ts` lines 24-57: the closed set
of optional per-request toggles. -/
structure RequestOptions where
  preTriggerInclude : Option String := none
  postTriggerInclude : Option String := none
  accessCondition : Option AccessCondition := none
  indexingDirective : Option String := none
  consistencyLevel : Option String := none
  sessionToken : Option String := none
  resourceTokenExpirySeconds : Option Nat := none
  disableAutomaticIdGeneration : Option Bool := none
deriving DecidableEq, Repr

/-- A present per-call field replaces the default; an absent one falls
back to it. -/
def overrideField {α : Type} (dflt perCall : Option α) : Option α :=
  match perCall with
  | some v => some v
  | none => dflt

/-- Modelled from the spec: `compose(defaults, perCall)` merges the
caller-supplied per-call options over the client-wide defaults
field-by-field, with no merge below the field level; an omitted per-call
options value keeps the defaults unchanged (§4.2). -/
def compose (defaults : RequestOptions) (perCall : Option RequestOptions) :
    RequestOptions :=
  match perCall with
  | none => defaults
  | some p =>
    { preTriggerInclude := overrideField defaults.preTriggerInclude p.preTriggerInclude
      postTriggerInclude := overrideField defaults.postTriggerInclude p.postTriggerInclude
      accessCondition := overrideField defaults.accessCondition p.accessCondition
      indexingDirective := overrideField defaults.indexingDirective p.indexingDirective
      consistencyLevel := overrideField defaults.consistencyLevel p.consistencyLevel
      sessionToken := overrideField defaults.sessionToken p.sessionToken
      resourceTokenExpirySeconds :=
        overrideField defaults.resourceTokenExpirySeconds p.resourceTokenExpirySeconds
      disableAutomaticIdGeneration :=
        overrideField defaults.disableAutomaticIdGeneration p.disableAutomaticIdGeneration }

theorem overrideField_some {α : Type} (dflt : Option α) (v : α) :
    overrideField dflt (some v) = some v := rfl

theorem overrideField_none {α : Type} (dflt : Option α) :
    overrideField dflt none = dflt := rfl

/-- C6: per-call options override client defaults field-by-field — a
present per-call field replaces the default, an absent per-call field
falls back to the default, an omitted per-call options value keeps every
default; there is no deep merge below the field level: the composed
conditional header is always exactly the per-call one or exactly the
default one, never a key-by-key mixture. -/
theorem c6_option_composition (defaults p : RequestOptions) :
    (compose defaults none = defaults) ∧
    ((∀ v, p.preTriggerInclude = some v →
        (compose defaults (some p)).preTriggerInclude = some v) ∧
      (p.preTriggerInclude = none →
        (compose defaults (some p)).preTriggerInclude =
          defaults.preTriggerInclude)) ∧
    ((∀ v, p.postTriggerInclude = some v →
        (compose defaults (some p)).postTriggerInclude = some v) ∧
      (p.postTriggerInclude = none →
        (compose defaults (some p)).postTriggerInclude =
          defaults.postTriggerInclude)) ∧
    ((∀ v, p.accessCondition = some v →
        (compose defaults (some p)).accessCondition = some v) ∧
      (p.accessCondition = none →
        (compose defaults (some p)).accessCondition =
          defaults.accessCondition)) ∧
    ((∀ v, p.indexingDirective = some v →
        (compose defaults (some p)).indexingDirective = some v) ∧
      (p.indexingDirective = none →
        (compose defaults (some p)).indexingDirective =
          defaults.indexingDirective)) ∧
    ((∀ v, p.consistencyLevel = some v →
        (compose defaults (some p)).consistencyLevel = some v) ∧
      (p.consistencyLevel = none →
        (compose defaults (some p)).consistencyLevel =
          defaults.consistencyLevel)) ∧
    ((∀ v, p.sessionToken = some v →
        (compose defaults (some p)).sessionToken = some v) ∧
      (p.sessionToken = none →
        (compose defaults (some p)).sessionToken = defaults.sessionToken)) ∧
    ((∀ v, p.resourceTokenExpirySeconds = some v →
        (compose defaults (some p)).resourceTokenExpirySeconds = some v) ∧
      (p.resourceTokenExpirySeconds = none →
        (compose defaults (some p)).resourceTokenExpirySeconds =
          defaults.resourceTokenExpirySeconds)) ∧
    ((∀ v, p.disableAutomaticIdGeneration = some v →
        (compose defaults (some p)).disableAutomaticIdGeneration = some v) ∧
      (p.disableAutomaticIdGeneration = none →
        (compose defaults (some p)).disableAutomaticIdGeneration =
          defaults.disableAutomaticIdGeneration)) ∧
    ((compose defaults (some p)).accessCondition = p.accessCondition ∨
      (compose defaults (some p)).accessCondition = defaults.accessCondition) := by
  refine ⟨rfl, ⟨?_, ?_⟩, ⟨?_, ?_⟩, ⟨?_, ?_⟩, ⟨?_, ?_⟩, ⟨?_, ?_⟩, ⟨?_, ?_⟩,
    ⟨?_, ?_⟩, ⟨?_, ?_⟩, ?_⟩
  all_goals
    first
      | (intro v h; simp [compose, overrideField, h])
      | (intro h; simp [compose, overrideField, h])
      | (cases h : p.accessCondition with
          | none => exact Or.inr (by simp [compose, overrideField, h])
          | some v => exact Or.inl (by simp [compose, overrideField, h]))

/-- Witness for C6: a per-call conditional header replaces a different
default wholesale, and an absent per-call session token falls back. -/
theorem c6_option_composition_witness :
    ({ accessCondition := some ⟨"IfMatch", "etag2"⟩ } :
        RequestOptions).accessCondition = some ⟨"IfMatch", "etag2"⟩ ∧
    (compose { accessCondition := some ⟨"IfNoneMatch", "etag1"⟩,
               sessionToken := some "tok" }
      (some { accessCondition := some ⟨"IfMatch", "etag2"⟩ })).accessCondition =
        some ⟨"IfMatch", "etag2"⟩ ∧
    (compose { accessCondition := some ⟨"IfNoneMatch", "etag1"⟩,
               sessionToken := some "tok" }
      (some { accessCondition := some ⟨"IfMatch", "etag2"⟩ })).sessionToken =
        some "tok" :=
  ⟨rfl,
    (c6_option_composition
      { accessCondition := some ⟨"IfNoneMatch", "etag1"⟩,
        sessionToken := some "tok" }
      { accessCondition := some ⟨"IfMatch", "etag2"⟩ }).2.2.2.1.1
      ⟨"IfMatch", "etag2"⟩ rfl,
    (c6_option_composition
      { accessCondition := some ⟨"IfNoneMatch", "etag1"⟩,
        sessionToken := some "tok" }
      { accessCondition := some ⟨"IfMatch", "etag2"⟩ }).2.2.2.2.2.2.1.2 rfl⟩

/-! ## Feed Iterator -/

/-- Modelled from the spec: one page of a feed response — the result
rows and the opaque continuation token of the next page, absent on the
last page (§4.4, §6). -/
structure FeedPage (α κ : Type) where
  items : List α
  continuation : Option κ

/-- Modelled from the spec: the Feed Iterator state machine states
(§4.4).  `Fetching` is transient within a single `next()` call and is
collapsed into `ready` in this sequential model. -/
inductive IterState (κ : Type) where
  | ready (cont : Option κ)
  | exhausted
  | failed (err : QueryError)

/-- Modelled from the spec: one `next()` invocation (§4.4).  The fetch
collaborator stands for one Request Executor call against the fixed feed
link (retry already happened inside it).  Returns the new state, the
delivered page (`ok none` is end-of-sequence), and the number of fetches
performed.  A failed iterator returns its terminal error with no fetch;
an exhausted iterator reports end-of-sequence with no fetch; a fetched
page with a continuation token keeps the iterator ready; a final page is
delivered and the iterator becomes exhausted (an empty final page is
end-of-sequence directly). -/
def nextPage {α κ : Type} (fetch : Option κ → Except QueryError (FeedPage α κ)) :
    IterState κ → IterState κ × Except QueryError (Option (List α)) × Nat
  | .failed err => (.failed err, .error err, 0)
  | .exhausted => (.exhausted, .ok none, 0)
  | .ready c =>
    match fetch c with
    | .error err => (.failed err, .error err, 1)
    | .ok page =>
      match page.continuation with
      | some c2 => (.ready (some c2), .ok (some page.items), 1)
      | none =>
        if page.items.isEmpty then (.exhausted, .ok none, 1)
        else (.exhausted, .ok (some page.items), 1)

/-- Modelled from the spec: the bulk drain — call `next()` until
end-of-sequence or failure, collecting the delivered pages (§4.4). -/
def drainPages {α κ : Type}
    (fetch : Option κ → Except QueryError (FeedPage α κ)) :
    Nat → IterState κ → List (List α)
  | 0, _ => []
  | fuel + 1, st =>
    match nextPage fetch st with
    | (st2, .ok (some page), _) => page :: drainPages fetch fuel st2
    | (_, .ok none, _) => []
    | (_, .error _, _) => []

/-- Modelled from the spec: the server side of a feed over a stable
dataset — the continuation token is the start index of the next page;
each fetch answers the next `k` items and a continuation token exactly
when items remain (§4.4, §8). -/
def datasetFetch {α : Type} (items : List α) (k : Nat) :
    Option Nat → Except QueryError (FeedPage α Nat) := fun c =>
  let start := c.getD 0
  .ok { items := (items.drop start).take k
        continuation :=
          if start + k < items.length then some (start + k) else none }

/-- The pages a fresh Feed Iterator delivers over a stable dataset with
page size `k`. -/
def feedPages {α : Type} (items : List α) (k : Nat) : List (List α) :=
  drainPages (datasetFetch items k) items.length (.ready none)

theorem ceil_step (a k : Nat) (ha : 1 ≤ a) (hk : 1 ≤ k) :
    (a + k - 1) / k = 1 + (a - k + k - 1) / k := by
  have h1 : a + k - 1 = (a - 1) + k := by omega
  rw [h1, Nat.add_div_right _ hk]
  by_cases hak : k < a
  · have h2 : a - k + k - 1 = a - 1 := by omega
    rw [h2, Nat.add_comm]
  · have h2 : a - k + k - 1 = k - 1 := by omega
    rw [h2, Nat.div_eq_of_lt (by omega), Nat.div_eq_of_lt (by omega)]

theorem drainPages_exhausted {α κ : Type}
    (fetch : Option κ → Except QueryError (FeedPage α κ)) :
    ∀ fuel : Nat, drainPages fetch fuel .exhausted = []
  | 0 => rfl
  | _ + 1 => rfl

theorem drainPages_dataset {α : Type} (items : List α) (k : Nat)
    (hk : 1 ≤ k) :
    ∀ (fuel : Nat) (copt : Option Nat),
      items.length ≤ copt.getD 0 + fuel * k →
      (drainPages (datasetFetch items k) fuel (.ready copt)).flatten =
          items.drop (copt.getD 0) ∧
      (drainPages (datasetFetch items k) fuel (.ready copt)).length =
          (items.length - copt.getD 0 + k - 1) / k := by
  intro fuel
  induction fuel with
  | zero =>
    intro copt hle
    simp only [Nat.zero_mul, Nat.add_zero] at hle
    refine ⟨?_, ?_⟩
    · simp only [drainPages, List.flatten_nil]
      exact (List.drop_eq_nil_of_le hle).symm
    · simp only [drainPages, List.length_nil]
      rw [Nat.sub_eq_zero_of_le hle, Nat.zero_add,
        Nat.div_eq_of_lt (by omega)]
  | succ f ih =>
    intro copt hle
    rw [Nat.succ_mul] at hle
    by_cases hlt : copt.getD 0 + k < items.length
    · have hnext : nextPage (datasetFetch items k) (.ready copt) =
          (.ready (some (copt.getD 0 + k)),
            .ok (some ((items.drop (copt.getD 0)).take k)), 1) := by
        simp [nextPage, datasetFetch, hlt]
      have hdrain : drainPages (datasetFetch items k) (f + 1) (.ready copt) =
          ((items.drop (copt.getD 0)).take k) ::
            drainPages (datasetFetch items k) f
              (.ready (some (copt.getD 0 + k))) := by
        simp only [drainPages, hnext]
      have hle2 : items.length ≤ (some (copt.getD 0 + k)).getD 0 + f * k := by
        simp only [Option.getD_some]
        omega
      obtain ⟨ihj, ihl⟩ := ih (some (copt.getD 0 + k)) hle2
      simp only [Option.getD_some] at ihj ihl
      refine ⟨?_, ?_⟩
      · rw [hdrain, List.flatten_cons, ihj]
        rw [← List.drop_drop k (copt.getD 0) items]
        exact List.take_append_drop k (items.drop (copt.getD 0))
      · rw [hdrain, List.length_cons, ihl]
        have ha : 1 ≤ items.length - copt.getD 0 := by omega
        rw [ceil_step (items.length - copt.getD 0) k ha hk]
        have he : items.length - copt.getD 0 - k =
            items.length - (copt.getD 0 + k) := by omega
        rw [he, Nat.add_comm]
    · by_cases hemp : items.length ≤ copt.getD 0
      · have hnext : nextPage (datasetFetch items k) (.ready copt) =
            (.exhausted, .ok none, 1) := by
          simp [nextPage, datasetFetch, hlt, List.drop_eq_nil_of_le hemp]
        have hdrain :
            drainPages (datasetFetch items k) (f + 1) (.ready copt) = [] := by
          simp only [drainPages, hnext]
        rw [hdrain]
        refine ⟨?_, ?_⟩
        · simp only [List.flatten_nil]
          exact (List.drop_eq_nil_of_le hemp).symm
        · simp only [List.length_nil]
          rw [Nat.sub_eq_zero_of_le hemp, Nat.zero_add,
            Nat.div_eq_of_lt (by omega)]
      · have hne : (items.drop (copt.getD 0)).take k ≠ [] := by
          intro hcontra
          rcases List.take_eq_nil_iff.mp hcontra with h | h
          all_goals
            first
              | omega
              | (rw [List.drop_eq_nil_iff] at h; omega)
        have hnext : nextPage (datasetFetch items k) (.ready copt) =
            (.exhausted,
              .ok (some ((items.drop (copt.getD 0)).take k)), 1) := by
          simp [nextPage, datasetFetch, hlt, List.isEmpty_iff, hne]
        have hdrain : drainPages (datasetFetch items k) (f + 1) (.ready copt) =
            [(items.drop (copt.getD 0)).take k] := by
          simp only [drainPages, hnext, drainPages_exhausted]
        rw [hdrain]
        have hlen : (items.drop (copt.getD 0)).length ≤ k := by
          rw [List.length_drop]
          omega
        refine ⟨?_, ?_⟩
        · simp only [List.flatten_cons, List.flatten_nil, List.append_nil]
          exact List.take_of_length_le hlen
        · simp only [List.length_singleton]
          have ha : 1 ≤ items.length - copt.getD 0 := by omega
          rw [ceil_step (items.length - copt.getD 0) k ha hk]
          have he : items.length - copt.getD 0 - k + k - 1 = k - 1 := by
            omega
          rw [he, Nat.div_eq_of_lt (by omega)]

/-- C1: a Feed Iterator created against a stable dataset of `N` matching
items with page size `k` returns `ceil(N/k)` pages, and concatenating
the pages in order reproduces the full result set with no duplicates and
no omissions. -/
theorem c1_feed_pagination {α : Type} (items : List α) (k : Nat)
    (hk : 1 ≤ k) :
    (feedPages items k).length = (items.length + k - 1) / k ∧
    (feedPages items k).flatten = items := by
  have h := drainPages_dataset items k hk items.length none
    (by simpa using Nat.le_mul_of_pos_right items.length hk)
  obtain ⟨hj, hl⟩ := h
  simp only [Option.getD_none, Nat.sub_zero, List.drop_zero] at hj hl
  exact ⟨hl, hj⟩

/-- Witness for C1: five items with page size two give three pages whose
concatenation is the dataset. -/
theorem c1_feed_pagination_witness :
    (1 : Nat) ≤ 2 ∧
    (feedPages [10, 11, 12, 13, 14] 2).length = 3 ∧
    (feedPages [10, 11, 12, 13, 14] 2).flatten = [10, 11, 12, 13, 14] :=
  ⟨by omega,
    by rw [(c1_feed_pagination [10, 11, 12, 13, 14] 2 (by omega)).1]; rfl,
    (c1_feed_pagination [10, 11, 12, 13, 14] 2 (by omega)).2⟩

/-- Repeated `next()` calls: the final state, the list of the delivered
results and the total number of fetches performed. -/
def repeatNext {α κ : Type}
    (fetch : Option κ → Except QueryError (FeedPage α κ)) :
    Nat → IterState κ →
      IterState κ × List (Except QueryError (Option (List α))) × Nat
  | 0, st => (st, [], 0)
  | n + 1, st =>
    let s1 := nextPage fetch st
    let s2 := repeatNext fetch n s1.1
    (s2.1, s1.2.1 :: s2.2.1, s1.2.2 + s2.2.2)

/-- C9: a Feed Iterator in the `Failed` state is failed permanently —
any number of subsequent `next()` calls leaves it in the same failed
state, every call returns the same terminal `QueryError`, and no fetch
(network attempt) is ever performed. -/
theorem c9_failed_is_terminal {α κ : Type}
    (fetch : Option κ → Except QueryError (FeedPage α κ))
    (e : QueryError) (n : Nat) :
    repeatNext (α := α) fetch n (.failed e) =
      (.failed e, List.replicate n (.error e), 0) := by
  induction n with
  | zero => rfl
  | succ m ih =>
    simp only [repeatNext, nextPage, ih, List.replicate_succ]

/-! ## Consistency/Session Tracker -/

/-- `FeedOptions` from `src/index.d.ts` lines 2-12: max item count,
opaque continuation token, session token. -/
structure FeedOptions where
  maxItemCount : Option Nat := none
  continuation : Option String := none
  sessionToken : Option String := none
deriving DecidableEq, Repr

/-- Modelled from the spec: the consistency levels a client can be
configured with (§4.2, §4.5). -/
inductive ConsistencyLevel where
  | strong
  | boundedStaleness
  | session
  | eventual
deriving DecidableEq, Repr

/-- Modelled from the spec: `SessionState`, a mapping from resource key
(collection self-link or resource id) to the most recently observed
session token; created empty, updated on every response carrying a
token (§3, §4.5).  Newer entries are consed in front. -/
def SessionState : Type := List (String × String)

/-- Modelled from the spec: `record(resourceKey, token)` — the tracker
is updated on every observed token regardless of the configured
consistency level (§4.5). -/
def recordToken (st : SessionState) (key token : String) : SessionState :=
  (key, token) :: st

/-- Modelled from the spec: `lookup(resourceKey) -> token | absent` — a
pure, total function of the state: it never blocks and performs no I/O
(§4.5). -/
def lookupToken : SessionState → String → Option String
  | [], _ => none
  | (k, v) :: rest, key => if k = key then some v else lookupToken rest key

/-- Modelled from the spec: the tracker state after a trace of
successful responses, each carrying a (resource key, session token)
pair, oldest first (§4.3 last bullet). -/
def applyTrace (st : SessionState) : List (String × String) → SessionState
  | [] => st
  | e :: rest => applyTrace (recordToken st e.1 e.2) rest

/-- The most recently recorded token for a key in a trace (later entries
win). -/
def lastToken : List (String × String) → String → Option String
  | [], _ => none
  | e :: rest, key =>
    match lastToken rest key with
    | some t => some t
    | none => if e.1 = key then some e.2 else none

/-- Modelled from the spec: the session token attached to a
session-consistency read — the tracker is consulted only under
session-level consistency (§4.2, §4.5). -/
def attachSessionToken (level : ConsistencyLevel) (st : SessionState)
    (key : String) : Option String :=
  if level = .session then lookupToken st key else none

/-- Modelled from the spec: the `FeedOptions` composed for one feed page
fetch, carrying the tracked session token (§4.4). -/
def feedOptionsFor (level : ConsistencyLevel) (st : SessionState)
    (key : String) (maxItems : Option Nat) (cont : Option String) :
    FeedOptions :=
  { maxItemCount := maxItems
    continuation := cont
    sessionToken := attachSessionToken level st key }

theorem lookupToken_recordToken (st : SessionState) (key token k : String) :
    lookupToken (recordToken st key token) k =
      if key = k then some token else lookupToken st k := rfl

theorem lookupToken_applyTrace (trace : List (String × String)) :
    ∀ (st : SessionState) (key : String),
    lookupToken (applyTrace st trace) key =
      match lastToken trace key with
      | some t => some t
      | none => lookupToken st key := by
  induction trace with
  | nil => intro st key; rfl
  | cons e rest ih =>
    intro st key
    simp only [applyTrace, lastToken]
    rw [ih]
    cases hl : lastToken rest key with
    | some t => rfl
    | none =>
      simp only [lookupToken_recordToken]
      by_cases hk : e.1 = key
      · rw [if_pos hk, if_pos hk]
      · rw [if_neg hk, if_neg hk]

/-- C8: after any successful session-consistency read or write recorded
for resource scope R, a subsequent session-consistency read of R
attaches the most recently recorded session token for R — both directly
and inside the composed `FeedOptions` — while under a non-session
consistency level the tracker is updated but not consulted; the lookup
is a pure total function of the tracker state. -/
theorem c8_session_token_replay (trace : List (String × String))
    (key token : String) (maxItems : Option Nat) (cont : Option String)
    (h : lastToken trace key = some token) :
    attachSessionToken .session (applyTrace [] trace) key = some token ∧
    (feedOptionsFor .session (applyTrace [] trace) key maxItems
        cont).sessionToken = some token ∧
    (∀ level : ConsistencyLevel, level ≠ .session →
      attachSessionToken level (applyTrace [] trace) key = none) := by
  have hl : lookupToken (applyTrace [] trace) key = some token := by
    rw [lookupToken_applyTrace trace [] key, h]
  refine ⟨?_, ?_, ?_⟩
  · simp only [attachSessionToken, if_pos rfl]
    exact hl
  · simp only [feedOptionsFor, attachSessionToken, if_pos rfl]
    exact hl
  · intro level hlev
    simp only [attachSessionToken, if_neg hlev]

/-- Witness for C8: two successive writes to collection scope `c1`; the
replayed token is the later one. -/
theorem c8_session_token_replay_witness :
    lastToken [("c1", "s1"), ("c2", "sx"), ("c1", "s2")] "c1" = some "s2" ∧
    attachSessionToken .session
      (applyTrace [] [("c1", "s1"), ("c2", "sx"), ("c1", "s2")]) "c1" =
        some "s2" ∧
    (feedOptionsFor .session
      (applyTrace [] [("c1", "s1"), ("c2", "sx"), ("c1", "s2")]) "c1"
        (some 10) none).sessionToken = some "s2" :=
  ⟨by decide,
    (c8_session_token_replay [("c1", "s1"), ("c2", "sx"), ("c1", "s2")]
      "c1" "s2" (some 10) none (by decide)).1,
    (c8_session_token_replay [("c1", "s1"), ("c2", "sx"), ("c1", "s2")]
      "c1" "s2" (some 10) none (by decide)).2.1⟩

/-! ## The declared DocumentClient surface -/

/-- The declared return type of a feed operation in `src/index.d.ts`. -/
inductive DeclaredReturn where
  | queryIterator
  | voidReturn
deriving DecidableEq, Repr

/-- One declared query / read-all-children operation of
`DocumentClient`. -/
structure FeedOpDecl where
  name : String
  returns : DeclaredReturn
deriving DecidableEq, Repr

/-- The query and read-all-children listing operations declared on
`DocumentClient` in `src/index.d.ts` (lines 552-594 and 821-936) with
their declared return types: every one returns `QueryIterator` except
`readOffers` (line 881), which is declared to return `void`. -/
def documentClientFeedOps : List FeedOpDecl :=
  [⟨"queryDatabases", .queryIterator⟩,
    ⟨"queryCollections", .queryIterator⟩,
    ⟨"queryStoredProcedures", .queryIterator⟩,
    ⟨"queryDocuments", .queryIterator⟩,
    ⟨"queryTriggers", .queryIterator⟩,
    ⟨"readDatabases", .queryIterator⟩,
    ⟨"readCollections", .queryIterator⟩,
    ⟨"readDocuments", .queryIterator⟩,
    ⟨"readAttachments", .queryIterator⟩,
    ⟨"readUsers", .queryIterator⟩,
    ⟨"readOffers", .voidReturn⟩,
    ⟨"readPermissions", .queryIterator⟩,
    ⟨"readTriggers", .queryIterator⟩,
    ⟨"readUserDefinedFunctions", .queryIterator⟩,
    ⟨"readStoredProcedures", .queryIterator⟩,
    ⟨"readConflicts", .queryIterator⟩]

/-- The members declared on the `QueryIterator` interface in
`src/index.d.ts` lines 97-101: only the bulk drain `toArray`. -/
def queryIteratorMembers : List String := ["toArray"]

/-- C7 counterexample: it is false that every declared feed operation
returns a `QueryIterator` and that the declared `QueryIterator` contract
provides both a per-page `next` and the bulk drain — `readOffers` is
declared to return `void` and the interface declares no `next` member. -/
theorem c7_counterexample :
    ¬((documentClientFeedOps.all fun d => d.returns == .queryIterator) = true ∧
      queryIteratorMembers.contains "next" = true ∧
      queryIteratorMembers.contains "toArray" = true) := by
  decide

/-- C7 (amended): every declared query and read-all-children operation
except `readOffers` returns a `QueryIterator`; `readOffers` is declared
to return `void`; and the declared `QueryIterator` contract provides
only the bulk drain `toArray`, with no per-page `next` member. -/
theorem c7_feed_iterator_surface :
    (documentClientFeedOps.all fun d =>
      d.name == "readOffers" || d.returns == .queryIterator) = true ∧
    documentClientFeedOps.contains ⟨"readOffers", .voidReturn⟩ = true ∧
    queryIteratorMembers = ["toArray"] ∧
    queryIteratorMembers.contains "next" = false := by
  decide

/-- One declared replace-operation overload of `DocumentClient`: its
declared method name, the resource kind it replaces, and whether the
overload takes a `RequestOptions` argument. -/
structure ReplaceDecl where
  name : String
  resource : ResourceTag
  hasOptions : Bool
deriving DecidableEq, Repr

/-- The replace-operation overloads declared on `DocumentClient` in
`src/index.d.ts` lines 596-683: each resource kind has a with-options
overload and an options-less (callback-only) overload under the same
name, except the offer (a single callback-only overload, line 632) and
the trigger, whose options-less overload is declared under the distinct
lowercase name `replacetrigger` (lines 661-662). -/
def documentClientReplaceOps : List ReplaceDecl :=
  [⟨"replaceAttachment", .attachment, true⟩,
    ⟨"replaceAttachment", .attachment, false⟩,
    ⟨"replaceCollection", .collection, true⟩,
    ⟨"replaceCollection", .collection, false⟩,
    ⟨"replaceDocument", .document, true⟩,
    ⟨"replaceDocument", .document, false⟩,
    ⟨"replaceOffer", .offer, false⟩,
    ⟨"replacePermission", .permission, true⟩,
    ⟨"replacePermission", .permission, false⟩,
    ⟨"replaceStoredProcedure", .storedProcedure, true⟩,
    ⟨"replaceStoredProcedure", .storedProcedure, false⟩,
    ⟨"replaceTrigger", .trigger, true⟩,
    ⟨"replacetrigger", .trigger, false⟩,
    ⟨"replaceUser", .user, true⟩,
    ⟨"replaceUser", .user, false⟩,
    ⟨"replaceUserDefinedFunction", .udf, true⟩,
    ⟨"replaceUserDefinedFunction", .udf, false⟩]

/-- C10: on the declared `DocumentClient` surface, no options-less
overload is named `replaceTrigger`; the callback-only trigger-replace
variant is declared under the distinct name `replacetrigger` while the
with-options variant is `replaceTrigger`; and for every other resource
kind all declared replace overloads share a single method name. -/
theorem c10_replacetrigger_naming :
    (documentClientReplaceOps.all fun d =>
      !(d.name == "replaceTrigger" && !d.hasOptions)) = true ∧
    documentClientReplaceOps.contains ⟨"replacetrigger", .trigger, false⟩ = true ∧
    documentClientReplaceOps.contains ⟨"replaceTrigger", .trigger, true⟩ = true ∧
    (documentClientReplaceOps.all fun d1 =>
      documentClientReplaceOps.all fun d2 =>
        !(d1.resource == d2.resource) || d1.resource == .trigger ||
          d1.name == d2.name) = true := by
  decide

end TypedDocumentDB
